import Mathlib

/-!
# Verification of the uniot-mqtt-explorer decoding/encoding core

This file gives a shallow embedding of the CBOR/COSE decoder
(`src/app/src/decoders/CborDecoder.ts`), the CBOR/COSE encoder
(`src/app/src/components/Sidebar/Publish/encoders/CborCoseEncoder.ts`),
the decoder registry resolution (`findDecoder`) and the per-topic decoder
cache (`TopicViewModel`), together with proofs about them.

Machine-level conventions of the embedding:
* raw payloads are `List Nat` of byte values;
* the JS `cbor` library's decoded value trees are the inductive `CborValue`
  (the definite-length subset: integers, byte strings, text strings,
  arrays, maps, tags and the simple values; floats and indefinite-length
  items are outside the modelled subset and decode to an error);
* JS strings are Lean `String`s, converted to bytes by an explicit UTF-8
  encoder so that everything evaluates inside the kernel.
-/

/-- UTF-8 encoding of a single character (code point), as the byte list
the JS runtime produces for `Buffer.from(string)` / CBOR text strings. -/
def utf8Char (n : Nat) : List Nat :=
  if n < 128 then [n]
  else if n < 2048 then [192 + n / 64, 128 + n % 64]
  else if n < 65536 then [224 + n / 4096, 128 + n / 64 % 64, 128 + n % 64]
  else [240 + n / 262144, 128 + n / 4096 % 64, 128 + n / 64 % 64, 128 + n % 64]

/-- UTF-8 bytes of a string. -/
def utf8Bytes (s : String) : List Nat :=
  s.data.flatMap (fun c => utf8Char c.toNat)

/-- CBOR value tree as decoded by the JS `cbor` library: `int` covers major
types 0/1 (decoded to a JS number when within the safe-integer range and to
a `BigInt` beyond it — the JS type is a function of the magnitude, so one
constructor carries both), `bigint` the `BigInt`s produced by the bignum tag
conversions (tags 2/3), whose JS type is `BigInt` regardless of magnitude,
`bytes` byte strings, `text` text strings (carried as their UTF-8 bytes),
`array`/`map` the containers, `tagged` a `cbor.Tagged` object, and
`bool`/`null`/`undefined` the simple values.  The library's other default
tag conversions (0/1 to `Date`, 32 to `URL`, 64–87 to typed arrays) produce
host objects whose behaviour under the predicates of this development
(`typeof === 'object'`, non-null, not an array) matches the `tagged`
representation, and they introduce no `BigInt`, so they are not converted
in the model. -/
inductive CborValue where
  | int (i : Int)
  | bigint (i : Int)
  | bytes (bs : List Nat)
  | text (bs : List Nat)
  | array (xs : List CborValue)
  | map (ps : List (CborValue × CborValue))
  | tagged (t : Nat) (v : CborValue)
  | bool (b : Bool)
  | null
  | undefined

/-- Encode a CBOR head: major type `mt` with argument `n`, using the
shortest form (as the JS `cbor` encoder does). -/
def encodeHead (mt n : Nat) : List Nat :=
  if n < 24 then [32 * mt + n]
  else if n < 256 then [32 * mt + 24, n]
  else if n < 65536 then [32 * mt + 25, n / 256, n % 256]
  else if n < 4294967296 then
    [32 * mt + 26, n / 16777216 % 256, n / 65536 % 256, n / 256 % 256, n % 256]
  else
    [32 * mt + 27, n / 72057594037927936 % 256, n / 281474976710656 % 256,
     n / 1099511627776 % 256, n / 4294967296 % 256,
     n / 16777216 % 256, n / 65536 % 256, n / 256 % 256, n % 256]

mutual
/-- CBOR encoding of a value, as produced by `cbor.encode` of the JS `cbor`
library on the corresponding JS value. -/
def cborEncode : CborValue → List Nat
  | .int i => if 0 ≤ i then encodeHead 0 i.toNat else encodeHead 1 (-(i + 1)).toNat
  | .bigint i => if 0 ≤ i then encodeHead 0 i.toNat else encodeHead 1 (-(i + 1)).toNat
  | .bytes bs => encodeHead 2 bs.length ++ bs
  | .text bs => encodeHead 3 bs.length ++ bs
  | .array xs => encodeHead 4 xs.length ++ encodeListItems xs
  | .map ps => encodeHead 5 ps.length ++ encodePairItems ps
  | .tagged t v => encodeHead 6 t ++ cborEncode v
  | .bool b => encodeHead 7 (if b then 21 else 20)
  | .null => encodeHead 7 22
  | .undefined => encodeHead 7 23

/-- Concatenated encodings of the elements of an array. -/
def encodeListItems : List CborValue → List Nat
  | [] => []
  | x :: xs => cborEncode x ++ encodeListItems xs

/-- Concatenated encodings of the key/value pairs of a map. -/
def encodePairItems : List (CborValue × CborValue) → List Nat
  | [] => []
  | (k, v) :: ps => cborEncode k ++ cborEncode v ++ encodePairItems ps
end

mutual
/-- Well-formedness of a value tree as the image of a JS value under the
`cbor` encoder: JS numbers encode as CBOR integers only when they are safe
integers (beyond 2^53−1 a double is no longer integral-exact and the
encoder emits a float, outside the modelled subset), lengths and tag
numbers fit the 64-bit CBOR argument field, `BigInt` values are excluded
(no JSON-derived value is a `BigInt`), and the bignum tags 2/3 are excluded
(the decoder converts them, so they never round-trip as `Tagged`).  It is a
hypothesis of the round-trip theorems. -/
def cborWf : CborValue → Bool
  | .int i => decide (-9007199254740991 ≤ i) && decide (i ≤ 9007199254740991)
  | .bigint _ => false
  | .bytes bs => decide (bs.length < 18446744073709551616)
  | .text bs => decide (bs.length < 18446744073709551616)
  | .array xs => decide (xs.length < 18446744073709551616) && cborWfList xs
  | .map ps => decide (ps.length < 18446744073709551616) && cborWfPairs ps
  | .tagged t v =>
    decide (t ≠ 2) && decide (t ≠ 3) && decide (t < 18446744073709551616) && cborWf v
  | .bool _ => true
  | .null => true
  | .undefined => true

/-- `cborWf` on every element of a list. -/
def cborWfList : List CborValue → Bool
  | [] => true
  | x :: xs => cborWf x && cborWfList xs

/-- `cborWf` on every key and value of a pair list. -/
def cborWfPairs : List (CborValue × CborValue) → Bool
  | [] => true
  | (k, v) :: ps => cborWf k && cborWf v && cborWfPairs ps
end

mutual
/-- Recursion-fuel needed by `decodeItem` to decode the encoding of a value. -/
def szItem : CborValue → Nat
  | .int _ => 1
  | .bigint _ => 1
  | .bytes _ => 1
  | .text _ => 1
  | .array xs => 1 + szList xs
  | .map ps => 1 + szPairs ps
  | .tagged _ v => 1 + szItem v
  | .bool _ => 1
  | .null => 1
  | .undefined => 1

/-- Fuel needed by `decodeManyItems` for a list of items. -/
def szList : List CborValue → Nat
  | [] => 0
  | x :: xs => 1 + max (szItem x) (szList xs)

/-- Fuel needed by `decodePairsItems` for a list of pairs. -/
def szPairs : List (CborValue × CborValue) → Nat
  | [] => 0
  | (k, v) :: ps => 1 + max (szItem k) (max (szItem v) (szPairs ps))
end

/-- Decode a CBOR head: returns the major type, the argument, and the
remaining bytes.  Indefinite lengths and reserved forms are errors. -/
def decodeHead : List Nat → Except String (Nat × Nat × List Nat)
  | [] => .error "no data"
  | b :: rest =>
    let mt := b / 32
    let ai := b % 32
    if ai < 24 then .ok (mt, ai, rest)
    else if ai = 24 then
      match rest with
      | b0 :: r => .ok (mt, b0, r)
      | [] => .error "eof"
    else if ai = 25 then
      match rest with
      | b1 :: b0 :: r => .ok (mt, b1 * 256 + b0, r)
      | _ => .error "eof"
    else if ai = 26 then
      match rest with
      | b3 :: b2 :: b1 :: b0 :: r => .ok (mt, ((b3 * 256 + b2) * 256 + b1) * 256 + b0, r)
      | _ => .error "eof"
    else if ai = 27 then
      match rest with
      | b7 :: b6 :: b5 :: b4 :: b3 :: b2 :: b1 :: b0 :: r =>
        .ok (mt, ((((((b7 * 256 + b6) * 256 + b5) * 256 + b4) * 256 + b3) * 256 + b2) * 256
          + b1) * 256 + b0, r)
      | _ => .error "eof"
    else .error "unsupported additional information"

/-- Big-endian unsigned value of a byte string (the bignum content
conversion of tags 2/3). -/
def beBytesNat (bs : List Nat) : Nat :=
  bs.foldl (fun acc b => acc * 256 + b) 0

mutual
/-- Decode one CBOR item from a byte list (fuel-indexed; every recursive
call decreases the fuel, and `cborDecode` supplies enough fuel for any
input that is an encoding).  As in the JS `cbor` library, the bignum tags
2 and 3 over a byte string are converted to `BigInt` values; other tags
stay `Tagged`. -/
def decodeItem : Nat → List Nat → Except String (CborValue × List Nat)
  | 0, _ => .error "nesting too deep"
  | fuel + 1, bs =>
    match decodeHead bs with
    | .error e => .error e
    | .ok (mt, n, rest) =>
      match mt with
      | 0 => .ok (.int n, rest)
      | 1 => .ok (.int (-(n + 1 : Int)), rest)
      | 2 => if n ≤ rest.length then .ok (.bytes (rest.take n), rest.drop n) else .error "eof bytes"
      | 3 => if n ≤ rest.length then .ok (.text (rest.take n), rest.drop n) else .error "eof text"
      | 4 =>
        match decodeManyItems fuel n rest with
        | .ok (vs, r) => .ok (.array vs, r)
        | .error e => .error e
      | 5 =>
        match decodePairsItems fuel n rest with
        | .ok (ps, r) => .ok (.map ps, r)
        | .error e => .error e
      | 6 =>
        match decodeItem fuel rest with
        | .ok (v, r) =>
          if n = 2 then
            match v with
            | .bytes bs => .ok (.bigint (beBytesNat bs), r)
            | _ => .ok (.tagged n v, r)
          else if n = 3 then
            match v with
            | .bytes bs => .ok (.bigint (-1 - (beBytesNat bs : Int)), r)
            | _ => .ok (.tagged n v, r)
          else .ok (.tagged n v, r)
        | .error e => .error e
      | _ =>
        match n with
        | 20 => .ok (.bool false, rest)
        | 21 => .ok (.bool true, rest)
        | 22 => .ok (.null, rest)
        | 23 => .ok (.undefined, rest)
        | _ => .error "unsupported simple or float value"

/-- Decode `count` consecutive CBOR items (array elements). -/
def decodeManyItems : Nat → Nat → List Nat → Except String (List CborValue × List Nat)
  | _, 0, bs => .ok ([], bs)
  | 0, _ + 1, _ => .error "nesting too deep"
  | fuel + 1, count + 1, bs =>
    match decodeItem fuel bs with
    | .ok (v, r) =>
      match decodeManyItems fuel count r with
      | .ok (vs, r2) => .ok (v :: vs, r2)
      | .error e => .error e
    | .error e => .error e

/-- Decode `count` consecutive key/value pairs (map entries). -/
def decodePairsItems : Nat → Nat → List Nat → Except String (List (CborValue × CborValue) × List Nat)
  | _, 0, bs => .ok ([], bs)
  | 0, _ + 1, _ => .error "nesting too deep"
  | fuel + 1, count + 1, bs =>
    match decodeItem fuel bs with
    | .ok (k, r) =>
      match decodeItem fuel r with
      | .ok (v, r2) =>
        match decodePairsItems fuel count r2 with
        | .ok (ps, r3) => .ok ((k, v) :: ps, r3)
        | .error e => .error e
      | .error e => .error e
    | .error e => .error e
end

/-- `cbor.decode` of the JS `cbor` library: decode the first item of the
buffer and require that no bytes remain; any failure is a thrown decode
error, modelled as `.error`. -/
def cborDecode (bs : List Nat) : Except String CborValue :=
  match decodeItem (2 * bs.length) bs with
  | .ok (v, []) => .ok v
  | .ok (_, _ :: _) => .error "trailing data"
  | .error e => .error e

/-! ## Base64 (the `js-base64` library used by the encoder) -/

/-- Value of a base64 alphabet character. -/
def b64Val (c : Char) : Nat :=
  if 65 ≤ c.toNat ∧ c.toNat ≤ 90 then c.toNat - 65
  else if 97 ≤ c.toNat ∧ c.toNat ≤ 122 then c.toNat - 71
  else if 48 ≤ c.toNat ∧ c.toNat ≤ 57 then c.toNat + 4
  else if c = '+' then 62
  else 63

/-- Whether a character belongs to the base64 alphabet `[A-Za-z0-9+/]`. -/
def isB64Char (c : Char) : Bool :=
  (65 ≤ c.toNat && c.toNat ≤ 90) || (97 ≤ c.toNat && c.toNat ≤ 122)
    || (48 ≤ c.toNat && c.toNat ≤ 57) || c = '+' || c = '/'

/-- base64 alphabet character for a 6-bit value. -/
def b64Char (n : Nat) : Char :=
  if n < 26 then Char.ofNat (65 + n)
  else if n < 52 then Char.ofNat (97 + (n - 26))
  else if n < 62 then Char.ofNat (48 + (n - 52))
  else if n = 62 then '+'
  else '/'

/-- Forgiving base64 decoding of a list of 6-bit values (leftover bits of a
trailing 2- or 3-character group are discarded, as the `atob` built-in does). -/
def b64Quads : List Nat → List Nat
  | a :: b :: c :: d :: rest =>
    (a * 4 + b / 16) :: ((b % 16) * 16 + c / 4) :: ((c % 4) * 64 + d) :: b64Quads rest
  | [a, b] => [a * 4 + b / 16]
  | [a, b, c] => [a * 4 + b / 16, (b % 16) * 16 + c / 4]
  | _ => []

/-- `Base64.toUint8Array` of the `js-base64` library: URL-safe characters are
mapped to their standard forms, every character outside the base64 alphabet
(including `=` padding and whitespace) is stripped, and the result is decoded
by the forgiving `atob` algorithm, which fails exactly when the cleaned
string's length is congruent 1 mod 4. -/
def urlSafeFix (c : Char) : Char :=
  if c = '-' then '+' else if c = '_' then '/' else c

/-- The cleaning step of `js-base64`: URL-safe variants mapped to standard
characters, everything outside the base64 alphabet stripped. -/
def tidyB64 (cs : List Char) : List Char :=
  (cs.map urlSafeFix).filter (fun c => isB64Char c)

def b64DecodeJs (s : String) : Except Unit (List Nat) :=
  let t := tidyB64 s.data
  if t.length % 4 = 1 then .error ()
  else .ok (b64Quads (t.map b64Val))

/-- `Base64.fromUint8Array` of the `js-base64` library: standard base64
encoding with padding. -/
def b64EncodeGroups : List Nat → List Char
  | a :: b :: c :: rest =>
    b64Char (a / 4) :: b64Char ((a % 4) * 16 + b / 16) :: b64Char ((b % 16) * 4 + c / 64)
      :: b64Char (c % 64) :: b64EncodeGroups rest
  | [a, b] => [b64Char (a / 4), b64Char ((a % 4) * 16 + b / 16), b64Char ((b % 16) * 4), '=']
  | [a] => [b64Char (a / 4), b64Char ((a % 4) * 16), '=', '=']
  | [] => []

/-- Base64 text of a byte list. -/
def b64Encode (bs : List Nat) : String :=
  ⟨b64EncodeGroups bs⟩

/-! ## JSON values (results of the JS `JSON.parse` built-in)

The encoder entry points receive user text and first apply `JSON.parse`.
`JSON.parse` is a JS built-in, so the embedding models a parse outcome
abstractly: `Except Unit Json` is the result of the `try { JSON.parse } catch`
block — `.error ()` when the text is not valid JSON, `.ok j` with the parsed
value otherwise.  JSON numbers are modelled as integers (the integral subset
of JS numbers; float payloads are outside the modelled subset). -/
inductive Json where
  | null
  | bool (b : Bool)
  | num (n : Int)
  | str (s : String)
  | arr (xs : List Json)
  | obj (kvs : List (String × Json))

mutual
/-- The JS value tree corresponding to a JSON value, as the `cbor` library
encodes it: objects become maps with text keys, strings become text strings. -/
def jsonToCbor : Json → CborValue
  | .null => .null
  | .bool b => .bool b
  | .num n => .int n
  | .str s => .text (utf8Bytes s)
  | .arr xs => .array (jsonListToCbor xs)
  | .obj kvs => .map (jsonObjToCbor kvs)

/-- Elementwise `jsonToCbor`. -/
def jsonListToCbor : List Json → List CborValue
  | [] => []
  | x :: xs => jsonToCbor x :: jsonListToCbor xs

/-- Pairwise `jsonToCbor` with text keys. -/
def jsonObjToCbor : List (String × Json) → List (CborValue × CborValue)
  | [] => []
  | (k, v) :: kvs => (.text (utf8Bytes k), jsonToCbor v) :: jsonObjToCbor kvs
end

/-- JS truthiness of a JSON value (`!v` / `if (v)` tests in the encoder). -/
def jsTruthy : Json → Bool
  | .null => false
  | .bool b => b
  | .num n => decide (n ≠ 0)
  | .str s => decide (s ≠ "")
  | .arr _ => true
  | .obj _ => true

/-- JS `typeof v === 'object'` on a JSON value (arrays and null included). -/
def jsTypeofObject : Json → Bool
  | .obj _ => true
  | .arr _ => true
  | .null => true
  | _ => false

/-- Property access `j.k` on a parsed JSON value: `none` models the JS
`undefined` (key absent or the value not an object).  `JSON.parse` keeps the
last of duplicate keys, hence the reversed search. -/
def getField (j : Json) (k : String) : Option Json :=
  match j with
  | .obj kvs => (kvs.reverse.find? (fun kv => kv.1 == k)).map (fun kv => kv.2)
  | _ => none

/-- JS `'k' in j` (only meaningful on objects; arrays have no string keys). -/
def hasField (j : Json) (k : String) : Bool :=
  match j with
  | .obj kvs => kvs.any (fun kv => kv.1 == k)
  | _ => false

/-- `x || {}` on a possibly absent field: a falsy or absent value is replaced
by an empty object. -/
def jsOrEmptyObj (o : Option Json) : Json :=
  match o with
  | some v => if jsTruthy v then v else Json.obj []
  | none => Json.obj []

/-! ## Decoder envelope and the CBOR/COSE decoder
(`src/app/src/decoders/CborDecoder.ts`) -/

/-- Modelled from the spec: `decoderTag` is one of a fixed enumeration
including at least `NONE` and `CBOR` (the enum lives in
`backend/src/Model/Decoder`, which is not part of the provided sources). -/
inductive Decoder where
  | NONE
  | CBOR

/-- Modelled from the spec: a decoded envelope is either
`(message, decoderTag)` or `(error, decoderTag = NONE)` — the TS type has
optional `message`/`error` fields next to a `decoder` tag.  A `Payload`
(`Base64Message`) is its raw byte list; `Base64Message.fromString` stores a
string's UTF-8 bytes. -/
structure DecoderEnvelope where
  message : Option (List Nat)
  decoder : Decoder
  error : Option String

/-- JS `typeof x === 'object'` for a decoded CBOR value: maps, arrays,
byte strings (Buffers/Uint8Arrays), `cbor.Tagged` objects and `null` are
all objects; numbers, strings, booleans and `undefined` are not. -/
def cborIsJsObject : CborValue → Bool
  | .map _ => true
  | .array _ => true
  | .bytes _ => true
  | .tagged _ _ => true
  | .null => true
  | _ => false

/-- `x instanceof Uint8Array || x instanceof Buffer`. -/
def cborIsBytes : CborValue → Bool
  | .bytes _ => true
  | _ => false

/-- `Array.isArray x`. -/
def cborIsArray : CborValue → Bool
  | .array _ => true
  | _ => false

/-- `x === null`. -/
def cborIsNull : CborValue → Bool
  | .null => true
  | _ => false

/-- `isCoseSign1` of `CborDecoder.ts`: unwrap a tag 18/98, then require a
4-element array whose first element is a byte string, whose second is a
non-null object that is neither an array nor a byte string, whose third is
a byte string or null, and whose fourth is a byte string. -/
def isCoseSign1 (decoded : CborValue) : Bool :=
  let coseArray :=
    match decoded with
    | .tagged t v => if t = 18 || t = 98 then v else decoded
    | _ => decoded
  match coseArray with
  | .array [a0, a1, a2, a3] =>
    cborIsBytes a0
      && (cborIsJsObject a1 && !cborIsNull a1 && !cborIsArray a1 && !cborIsBytes a1)
      && (cborIsBytes a2 || cborIsNull a2)
      && cborIsBytes a3
  | _ => false

/-- Code points matched by the non-printable test
`/[\x00-\x08\x0E-\x1F\x7F-\x9F]/` of `parseCoseSign1`. -/
def isBadCp (n : Nat) : Bool :=
  (n ≤ 8) || (14 ≤ n && n ≤ 31) || (127 ≤ n && n ≤ 159)

/-- Decode UTF-8 bytes to code points (`Buffer.toString('utf8')`; the model
rejects invalid sequences where JS would substitute U+FFFD — the difference
only moves some unreachable payload previews between the `string` and
`binary` classifications, which no claim constrains). -/
def utf8DecodeCps : Nat → List Nat → Option (List Nat)
  | _, [] => some []
  | 0, _ :: _ => none
  | fuel + 1, b :: rest =>
    if b < 128 then (utf8DecodeCps fuel rest).map (fun cps => b :: cps)
    else if 192 ≤ b ∧ b < 224 then
      match rest with
      | c1 :: r =>
        if 128 ≤ c1 ∧ c1 < 192 then
          (utf8DecodeCps fuel r).map (fun cps => ((b - 192) * 64 + (c1 - 128)) :: cps)
        else none
      | _ => none
    else if 224 ≤ b ∧ b < 240 then
      match rest with
      | c1 :: c2 :: r =>
        if (128 ≤ c1 ∧ c1 < 192) ∧ (128 ≤ c2 ∧ c2 < 192) then
          (utf8DecodeCps fuel r).map
            (fun cps => ((b - 224) * 4096 + (c1 - 128) * 64 + (c2 - 128)) :: cps)
        else none
      | _ => none
    else if 240 ≤ b ∧ b < 248 then
      match rest with
      | c1 :: c2 :: c3 :: r =>
        if (128 ≤ c1 ∧ c1 < 192) ∧ (128 ≤ c2 ∧ c2 < 192) ∧ (128 ≤ c3 ∧ c3 < 192) then
          (utf8DecodeCps fuel r).map
            (fun cps => ((b - 240) * 262144 + (c1 - 128) * 4096 + (c2 - 128) * 64
              + (c3 - 128)) :: cps)
        else none
      | _ => none
    else none

/-- Result of the protected-header sub-decode in `parseCoseSign1`. -/
inductive CoseProtected where
  | decodedVal (v : CborValue)
  | emptyObj
  | decodeFailed (raw : List Nat)

/-- Result of the payload classification in `parseCoseSign1`. -/
inductive CosePayload where
  | isNull
  | cborPayload (v : CborValue)
  | textPayload (cps : List Nat)
  | binaryPayload (len : Nat) (preview : List Nat)

/-- `signature_info` of `parseCoseSign1`: total length plus a preview of the
first (at most) 16 bytes; the signature is never sub-decoded. -/
structure SigInfo where
  length : Nat
  preview : List Nat

/-- The diagnostic object built by `parseCoseSign1` on its main path. -/
structure CoseParsed where
  _cose_structure : String
  _cbor_tag : Option Nat
  protected_headers : CoseProtected
  unprotected_headers : CborValue
  payload : CosePayload
  signature_info : SigInfo

/-- Result of `parseCoseSign1`: the parsed diagnostic object, or the
`_parse_error` object produced by its catch-all handler. -/
inductive CoseResult where
  | parsed (r : CoseParsed)
  | parseError (raw : CborValue)

/-- Protected-header processing of `parseCoseSign1`: non-empty byte strings
are sub-decoded as CBOR with a 32-byte raw preview on failure; an empty (or,
in unreachable non-byte-string cases, length-less) protected element yields
the empty-object default. -/
def classifyProtected (p : CborValue) : CoseProtected :=
  match p with
  | .bytes pb =>
    if pb.length > 0 then
      match cborDecode pb with
      | .ok v => .decodedVal v
      | .error _ => .decodeFailed (pb.take 32)
    else .emptyObj
  | _ => .emptyObj

/-- Payload classification of `parseCoseSign1`: CBOR first, then printable
text, then a bounded binary preview. -/
def classifyPayload (plb : List Nat) : CosePayload :=
  match cborDecode plb with
  | .ok v => .cborPayload v
  | .error _ =>
    match utf8DecodeCps plb.length plb with
    | some cps =>
      if decide (cps.length > 0) && cps.all (fun n => !isBadCp n) then .textPayload cps
      else .binaryPayload plb.length (plb.take 32)
    | none => .binaryPayload plb.length (plb.take 32)

/-- `parseCoseSign1` of `CborDecoder.ts`: extract the tag of any tagged
value, then destructure the 4-element COSE array.  Any shape on which the
JS body would throw (non-array, or a signature element without
`length`/`slice`) is routed to the catch-all `_parse_error` result. -/
def parseCoseSign1 (decoded : CborValue) : CoseResult :=
  let tagAndArray : Option Nat × CborValue :=
    match decoded with
    | .tagged t v => (some t, v)
    | _ => (none, decoded)
  match tagAndArray.2 with
  | .array (p :: u :: pl :: .bytes sb :: _) =>
    .parsed {
      _cose_structure := "COSE_Sign1"
      _cbor_tag := tagAndArray.1
      protected_headers := classifyProtected p
      unprotected_headers := u
      payload :=
        (match pl with
         | .bytes plb => if plb.length > 0 then classifyPayload plb else .isNull
         | _ => .isNull)
      signature_info := { length := sb.length, preview := sb.take 16 } }
  | _ => .parseError decoded

/-! ### Rendering (the JSON.stringify step of `decode`)

`JSON.stringify(x, null, 2)` is a JS built-in; the claims constrain only
the success/shape of the envelope, never the rendered text, so the model
renders compactly (no indentation/escaping fidelity). -/

/-- Comma-separated numbers. -/
def renderNats : List Nat → String
  | [] => ""
  | [x] => toString x
  | x :: xs => toString x ++ "," ++ renderNats xs

mutual
/-- Compact rendering of a decoded CBOR value (stands in for
`JSON.stringify` on the decoded JS value). -/
def renderCbor : CborValue → String
  | .int i => toString i
  | .bigint i => toString i
  | .bytes bs => "\x7b\"type\":\"Buffer\",\"data\":[" ++ renderNats bs ++ "]\x7d"
  | .text bs => "\"utf8:" ++ renderNats bs ++ "\""
  | .array xs => "[" ++ renderCborList xs ++ "]"
  | .map ps => "\x7b" ++ renderCborPairs ps ++ "\x7d"
  | .tagged t v => "\x7b\"tag\":" ++ toString t ++ ",\"value\":" ++ renderCbor v ++ "\x7d"
  | .bool b => if b then "true" else "false"
  | .null => "null"
  | .undefined => "undefined"

/-- Comma-separated rendering of array elements. -/
def renderCborList : List CborValue → String
  | [] => ""
  | [x] => renderCbor x
  | x :: xs => renderCbor x ++ "," ++ renderCborList xs

/-- Comma-separated rendering of map entries. -/
def renderCborPairs : List (CborValue × CborValue) → String
  | [] => ""
  | [(k, v)] => renderCbor k ++ ":" ++ renderCbor v
  | (k, v) :: ps => renderCbor k ++ ":" ++ renderCbor v ++ "," ++ renderCborPairs ps
end

/-- Rendering of the COSE diagnostic object (stands in for
`JSON.stringify(coseStructure, null, 2)`). -/
def renderCose : CoseResult → String
  | .parsed r =>
    "\x7b\"_cose_structure\":\"" ++ r._cose_structure ++ "\",\"_cbor_tag\":"
      ++ (match r._cbor_tag with | some t => toString t | none => "null")
      ++ ",\"protected_headers\":"
      ++ (match r.protected_headers with
          | .decodedVal v => renderCbor v
          | .emptyObj => "\x7b\x7d"
          | .decodeFailed raw => "\x7b\"_decode_error\":\"Failed to decode protected headers\",\"_raw_bytes\":["
              ++ renderNats raw ++ "]\x7d")
      ++ ",\"unprotected_headers\":" ++ renderCbor r.unprotected_headers
      ++ ",\"payload\":"
      ++ (match r.payload with
          | .isNull => "null"
          | .cborPayload v => "\x7b\"_type\":\"cbor\",\"_decoded\":" ++ renderCbor v ++ "\x7d"
          | .textPayload cps => "\x7b\"_type\":\"string\",\"_decoded\":\"cp:" ++ renderNats cps ++ "\"\x7d"
          | .binaryPayload len preview => "\x7b\"_type\":\"binary\",\"_length\":" ++ toString len
              ++ ",\"_preview\":[" ++ renderNats preview ++ "]\x7d")
      ++ ",\"signature_info\":\x7b\"length\":" ++ toString r.signature_info.length
      ++ ",\"preview\":[" ++ renderNats r.signature_info.preview ++ "]\x7d\x7d"
  | .parseError raw =>
    "\x7b\"_cose_structure\":\"COSE_Sign1\",\"_parse_error\":\"Failed to parse COSE Sign1 structure\",\"_raw_structure\":"
      ++ renderCbor raw ++ "\x7d"

/-- Whether a value is a JS string (a text string in the decoded tree);
used for the map representation choice below. -/
def cborIsTextVal : CborValue → Bool
  | .text _ => true
  | _ => false

mutual
/-- Whether `JSON.stringify` applied to the decoded JS value throws the
`BigInt` serialization `TypeError`: true when serialization reaches a
`BigInt` — an integer beyond the safe range 2^53−1 (decoded to `BigInt` by
the `cbor` library) or a bignum-tag conversion.  Serialization recurses
into array elements, `Tagged` contents (its enumerable `value` property)
and the values of string-keyed maps (decoded to plain objects); maps with
non-string keys decode to `Map` objects, which `JSON.stringify` serializes
as empty objects without recursing. -/
def cborContainsBigInt : CborValue → Bool
  | .int i => decide (9007199254740991 < i) || decide (i < -9007199254740991)
  | .bigint _ => true
  | .bytes _ => false
  | .text _ => false
  | .array xs => bigIntInList xs
  | .map ps => (ps.all fun kv => cborIsTextVal kv.1) && bigIntInMapValues ps
  | .tagged _ v => cborContainsBigInt v
  | .bool _ => false
  | .null => false
  | .undefined => false

/-- `cborContainsBigInt` over array elements. -/
def bigIntInList : List CborValue → Bool
  | [] => false
  | x :: xs => cborContainsBigInt x || bigIntInList xs

/-- `cborContainsBigInt` over the values of map entries. -/
def bigIntInMapValues : List (CborValue × CborValue) → Bool
  | [] => false
  | (_, v) :: ps => cborContainsBigInt v || bigIntInMapValues ps
end

/-- Whether `JSON.stringify` applied to the COSE diagnostic object throws
the `BigInt` serialization error: serialization reaches the sub-decoded
protected headers, the unprotected headers carried as-is, and the
sub-decoded payload (the other fields hold only numbers and strings). -/
def coseContainsBigInt : CoseResult → Bool
  | .parsed r =>
    (match r.protected_headers with
     | .decodedVal v => cborContainsBigInt v
     | _ => false)
    || cborContainsBigInt r.unprotected_headers
    || (match r.payload with
        | .cborPayload v => cborContainsBigInt v
        | _ => false)
  | .parseError raw => cborContainsBigInt raw

/-- `CborDecoder.formats`. -/
def CborDecoder.formats : List String := ["CBOR"]

/-- `CborDecoder.canDecodeData`: reject empty buffers, read the first byte's
major type (always in range 0–7), then attempt a full decode; any thrown
decode error is caught and yields `false`. -/
def CborDecoder.canDecodeData (data : List Nat) : Bool :=
  if data.length = 0 then false
  else
    let firstByte := data.headD 0
    let majorType := firstByte / 32 % 8
    if majorType > 7 then false
    else
      match cborDecode data with
      | .ok _ => true
      | .error _ => false

/-- `CborDecoder.decode`: decode the buffer; on a COSE Sign1 shape
stringify the parsed diagnostic object, otherwise stringify the plain
value, and return the text as a success envelope tagged CBOR.  Both the
decode step and the `JSON.stringify` step run inside the same try/catch:
a decode error, or the `TypeError` that `JSON.stringify` raises on a
`BigInt`-containing value, is caught and returned as an error envelope
tagged NONE. -/
def CborDecoder.decode (input : List Nat) : DecoderEnvelope :=
  match cborDecode input with
  | .ok decoded =>
    if isCoseSign1 decoded then
      let coseStructure := parseCoseSign1 decoded
      if coseContainsBigInt coseStructure then
        { message := none
          decoder := Decoder.NONE
          error := some "Failed to decode CBOR: Do not know how to serialize a BigInt" }
      else
        { message := some (utf8Bytes (renderCose coseStructure))
          decoder := Decoder.CBOR
          error := none }
    else
      if cborContainsBigInt decoded then
        { message := none
          decoder := Decoder.NONE
          error := some "Failed to decode CBOR: Do not know how to serialize a BigInt" }
      else
        { message := some (utf8Bytes (renderCbor decoded))
          decoder := Decoder.CBOR
          error := none }
  | .error e =>
    { message := none
      decoder := Decoder.NONE
      error := some ("Failed to decode CBOR: " ++ e) }

/-! ## CBOR/COSE encoder (`CborCoseEncoder.ts`) -/

/-- `EncodingResult`: `{success, data?, error?}`. -/
structure EncodingResult where
  success : Bool
  data : Option String
  error : Option String

/-- Strip the optional `0x` marker (`.replace(/^0x/, '')`). -/
def stripHexMarker : List Char → List Char
  | '0' :: 'x' :: rest => rest
  | cs => cs

/-- JS `\s` whitespace (the common members). -/
def isJsWhitespace (c : Char) : Bool :=
  c = ' ' || c = '\t' || c = '\n' || c = '\r' || c.toNat = 11 || c.toNat = 12

/-- Hex digit test `[0-9A-Fa-f]`. -/
def isHexDigitChar (c : Char) : Bool :=
  (48 ≤ c.toNat && c.toNat ≤ 57) || (65 ≤ c.toNat && c.toNat ≤ 70)
    || (97 ≤ c.toNat && c.toNat ≤ 102)

/-- Value of a hex digit. -/
def hexVal (c : Char) : Nat :=
  if c.toNat ≤ 57 then c.toNat - 48
  else if c.toNat ≤ 70 then c.toNat - 55
  else c.toNat - 87

/-- `hexString.match(/.{1,2}/g)` + `parseInt(byte, 16)`: left-to-right pairs,
a trailing single digit is its own value. -/
def hexPairsToBytes : List Char → List Nat
  | a :: b :: rest => (hexVal a * 16 + hexVal b) :: hexPairsToBytes rest
  | [a] => [hexVal a]
  | [] => []

/-- The hex branch of the signature handling: strip `0x`, strip whitespace,
require all hex digits (an empty result decodes to no bytes). -/
def hexDecodeJs (s : String) : Except Unit (List Nat) :=
  let cs := (stripHexMarker s.data).filter (fun c => !isJsWhitespace c)
  if cs.all (fun c => isHexDigitChar c) then .ok (hexPairsToBytes cs) else .error ()

/-- The signature handling of `encodeCoseSign1`: a falsy/absent signature
yields the empty byte string; a truthy signature is base64-decoded first,
hex-decoded second, and an error is reported only when both fail (a truthy
non-string value makes both built-ins throw). -/
def resolveSignature (sigField : Option Json) : Except String (List Nat) :=
  match sigField with
  | some v =>
    if jsTruthy v then
      match v with
      | .str s =>
        match b64DecodeJs s with
        | .ok bs => .ok bs
        | .error _ =>
          match hexDecodeJs s with
          | .ok bs => .ok bs
          | .error _ => .error "Signature must be valid base64 or hex string"
      | _ => .error "Signature must be valid base64 or hex string"
    else .ok []
  | none => .ok []

/-- `encodeCbor`: parse the text as JSON, falling back to the literal string
on parse failure, CBOR-encode the value and return it base64-encoded.  The
outer catch of the source is unreachable for JSON-derived values (the `cbor`
encoder does not throw on them), so the model is total. -/
def encodeCbor (parsed : Except Unit Json) (input : String) : EncodingResult :=
  let value : Json :=
    match parsed with
    | .ok j => j
    | .error _ => .str input
  { success := true
    data := some (b64Encode (cborEncode (jsonToCbor value)))
    error := none }

/-- The tagged COSE Sign1 value assembled by `encodeCoseSign1`:
`new cbor.Tagged(18, [protectedBytes, unprotectedHeaders, payloadBytes,
signatureBytes])`, with protected headers and payload each independently
CBOR-encoded and the defaulting `|| {}` applied to both header fields. -/
def coseSign1Value (j : Json) (sigBytes : List Nat) : CborValue :=
  .tagged 18 (.array [
    .bytes (cborEncode (jsonToCbor (jsOrEmptyObj (getField j "protected_headers")))),
    jsonToCbor (jsOrEmptyObj (getField j "unprotected_headers")),
    .bytes (cborEncode (jsonToCbor ((getField j "payload").getD .null))),
    .bytes sigBytes])

/-- `encodeCoseSign1` on the outcome of the initial `JSON.parse`: the two
validation failures (bad JSON, no `payload` key), the object check, the
signature resolution, and the success path returning base64 of the tagged
CBOR encoding. -/
def encodeCoseSign1 (parsed : Except Unit Json) : EncodingResult :=
  match parsed with
  | .error _ =>
    { success := false
      data := none
      error := some ("COSE input must be valid JSON with structure: \x7b\"protected_headers\": \x7b...\x7d, \"unprotected_headers\": \x7b...\x7d, \"payload\": \x7b...\x7d, \"signature\": \"...\"\x7d") }
  | .ok coseData =>
    if !(jsTruthy coseData && jsTypeofObject coseData) then
      { success := false
        data := none
        error := some "COSE input must be a JSON object" }
    else if !(hasField coseData "payload") then
      { success := false
        data := none
        error := some "COSE input must contain a \"payload\" field" }
    else
      match resolveSignature (getField coseData "signature") with
      | .error e => { success := false, data := none, error := some e }
      | .ok sigBytes =>
        { success := true
          data := some (b64Encode (cborEncode (coseSign1Value coseData sigBytes)))
          error := none }

/-! ## Decoder registry resolution (`findDecoder`) and the per-topic cache
(`TopicViewModel`) -/

/-- The capability record of a registered decoder (the `MessageDecoder`
interface): declared formats, optional topic-name predicate, optional
byte-sniffing predicate. -/
structure MessageDecoder where
  formats : List String
  canDecodeTopic : Option (String → Bool)
  canDecodeData : Option (List Nat → Bool)

/-- The CBOR decoder's registry entry: formats `['CBOR']`, no topic
predicate, sniffing via `canDecodeData`. -/
def cborRegistryEntry : MessageDecoder :=
  { formats := ["CBOR"]
    canDecodeTopic := none
    canDecodeData := some CborDecoder.canDecodeData }

/-- The per-decoder test inside `findDecoder`:
`decoder.canDecodeTopic?.(node.path()) ||
 (node.message?.payload && decoder.canDecodeData?.(payload))`. -/
def decoderMatches (d : MessageDecoder) (path : String) (payload : Option (List Nat)) : Bool :=
  (match d.canDecodeTopic with
   | some f => f path
   | none => false)
  || (match payload, d.canDecodeData with
      | some p, some f => f p
      | _, _ => false)

/-- A resolved decoder binding: `{ decoder, format: decoder.formats[0] }`. -/
structure TopicDecoder where
  decoder : MessageDecoder
  format : Option String

/-- `findDecoder` of the TopicViewModel module: one `Array.find` pass over
the registry list, returning the first decoder whose topic-name predicate
or byte-sniffing predicate matches, bound with its first declared format. -/
def findDecoder (ds : List MessageDecoder) (path : String) (payload : Option (List Nat)) :
    Option TopicDecoder :=
  (ds.find? (fun d => decoderMatches d path payload)).map
    (fun d => { decoder := d, format := d.formats.head? })

/-- The tree node a view model owns: its topic path and the latest message
payload (`node.path()`, `node.message?.payload`). -/
structure NodeState where
  path : String
  payload : Option (List Nat)

/-- State of a `TopicViewModel`: the memoized `_decoder` binding and the
owning node, plus the unrelated UI fields. -/
structure TopicViewModel where
  _decoder : Option TopicDecoder
  owner : Option NodeState
  selected : Bool
  expanded : Bool
  referenceCounter : Int

/-- The `decoder` getter: lazily resolve via `findDecoder` over the owner
and memoize; an already-memoized binding is returned with the state
unchanged.  (The deferred `onDecoderChange` dispatch does not touch the
state.) -/
def getDecoder (ds : List MessageDecoder) (vm : TopicViewModel) :
    Option TopicDecoder × TopicViewModel :=
  match vm._decoder with
  | some d => (some d, vm)
  | none =>
    match vm.owner with
    | some node =>
      match findDecoder ds node.path node.payload with
      | some nd => (some nd, { vm with _decoder := some nd })
      | none => (none, vm)
    | none => (none, vm)

/-- The `decoder` setter (user override). -/
def setDecoder (vm : TopicViewModel) (override : Option TopicDecoder) : TopicViewModel :=
  { vm with _decoder := override }

/-- A new message arriving on the owning topic updates the node's latest
payload and nothing else: the `TopicViewModel` constructor subscribes no
`onMessage` handler (the invalidation handler is commented out in the
source), so the memoized `_decoder` is untouched. -/
def messageArrives (vm : TopicViewModel) (p : List Nat) : TopicViewModel :=
  { vm with owner := vm.owner.map (fun n => { n with payload := some p }) }

/-- `destroy`: unlink the owner and clear listeners (the memoized binding
field itself is not assigned). -/
def destroyVM (vm : TopicViewModel) : TopicViewModel :=
  { vm with owner := none }

/-- The events of the cache claim: a message arriving on the topic, and a
read of the `decoder` getter. -/
inductive VMEvent where
  | msgArrive (p : List Nat)
  | readDecoder

/-- State transition of a `TopicViewModel` under a cache event. -/
def applyVMEvent (ds : List MessageDecoder) (vm : TopicViewModel) : VMEvent → TopicViewModel
  | .msgArrive p => messageArrives vm p
  | .readDecoder => (getDecoder ds vm).2

/-- A key/value map (a plain JS object / `Map`). -/
def cborIsMap : CborValue → Bool
  | .map _ => true
  | _ => false

/-- Modelled from the spec: the two-phase resolution the spec describes for
the registry — return the first decoder whose topic-name predicate matches;
only if no topic-name predicate matches, return the first whose
byte-sniffing predicate matches the latest payload. -/
def resolveTwoPhase (ds : List MessageDecoder) (path : String) (payload : Option (List Nat)) :
    Option TopicDecoder :=
  match ds.find? (fun d => match d.canDecodeTopic with | some f => f path | none => false) with
  | some d => some { decoder := d, format := d.formats.head? }
  | none =>
    (ds.find? (fun d =>
      match payload, d.canDecodeData with
      | some p, some f => f p
      | _, _ => false)).map (fun d => { decoder := d, format := d.formats.head? })

/-- A registry entry with no topic rule whose sniffing accepts everything
(the shape the `MessageDecoder` interface allows). -/
def sniffOnlyDecoder : MessageDecoder :=
  { formats := ["sniff", "sniff2"], canDecodeTopic := none, canDecodeData := some (fun _ => true) }

/-- A registry entry whose topic rule accepts everything and which declares
no sniffing rule. -/
def topicOnlyDecoder : MessageDecoder :=
  { formats := ["topic"], canDecodeTopic := some (fun _ => true), canDecodeData := none }

/-! ## Theorems -/


theorem encodeHead_length_pos (mt n : Nat) : 1 ≤ (encodeHead mt n).length := by
  unfold encodeHead
  split_ifs <;> simp

theorem decodeHead_encodeHead (mt n : Nat) (rest : List Nat) (hmt : mt < 8)
    (hn : n < 18446744073709551616) :
    decodeHead (encodeHead mt n ++ rest) = .ok (mt, n, rest) := by
  unfold encodeHead
  split_ifs with h1 h2 h3 h4
  · have e1 : (32 * mt + n) / 32 = mt := by omega
    have e2 : (32 * mt + n) % 32 = n := by omega
    simp [decodeHead, e1, e2, h1]
  · have e1 : (32 * mt + 24) / 32 = mt := by omega
    have e2 : (32 * mt + 24) % 32 = 24 := by omega
    simp [decodeHead, e1, e2]
  · have e1 : (32 * mt + 25) / 32 = mt := by omega
    have e2 : (32 * mt + 25) % 32 = 25 := by omega
    have e3 : n / 256 * 256 + n % 256 = n := by omega
    simp [decodeHead, e1, e2, e3]
  · have e1 : (32 * mt + 26) / 32 = mt := by omega
    have e2 : (32 * mt + 26) % 32 = 26 := by omega
    have e3 : ((n / 16777216 % 256 * 256 + n / 65536 % 256) * 256 + n / 256 % 256) * 256
        + n % 256 = n := by omega
    simp [decodeHead, e1, e2, e3]
  · have e1 : (32 * mt + 27) / 32 = mt := by omega
    have e2 : (32 * mt + 27) % 32 = 27 := by omega
    have e3 : ((((((n / 72057594037927936 % 256 * 256 + n / 281474976710656 % 256) * 256
        + n / 1099511627776 % 256) * 256 + n / 4294967296 % 256) * 256
        + n / 16777216 % 256) * 256 + n / 65536 % 256) * 256 + n / 256 % 256) * 256
        + n % 256 = n := by omega
    simp [decodeHead, e1, e2, e3]

/-- Decoding inverts encoding, at every fuel level at least the size of the
value: the conjunction over single items, element lists and pair lists,
proved by induction on the fuel. -/
theorem decode_encode_all : ∀ fuel : Nat,
    (∀ v : CborValue, ∀ rest, cborWf v = true → szItem v ≤ fuel →
      decodeItem fuel (cborEncode v ++ rest) = .ok (v, rest)) ∧
    (∀ xs : List CborValue, ∀ rest, cborWfList xs = true → szList xs ≤ fuel →
      decodeManyItems fuel xs.length (encodeListItems xs ++ rest) = .ok (xs, rest)) ∧
    (∀ ps : List (CborValue × CborValue), ∀ rest, cborWfPairs ps = true → szPairs ps ≤ fuel →
      decodePairsItems fuel ps.length (encodePairItems ps ++ rest) = .ok (ps, rest)) := by
  intro fuel
  induction fuel with
  | zero =>
    refine ⟨?_, ?_, ?_⟩
    · intro v rest _ hsz
      exfalso
      cases v <;> simp [szItem] at hsz
    · intro xs rest _ hsz
      cases xs with
      | nil => simp [encodeListItems, decodeManyItems]
      | cons x xs => simp [szList] at hsz
    · intro ps rest _ hsz
      cases ps with
      | nil => simp [encodePairItems, decodePairsItems]
      | cons p ps => obtain ⟨k, v⟩ := p; simp [szPairs] at hsz
  | succ fuel ih =>
    obtain ⟨ih1, ih2, ih3⟩ := ih
    refine ⟨?_, ?_, ?_⟩
    · intro v rest hwf hsz
      cases v with
      | int i =>
        rcases le_or_lt 0 i with hi | hi
        · have hn : i.toNat < 18446744073709551616 := by
            simp [cborWf] at hwf
            omega
          simp only [cborEncode, if_pos hi]
          rw [decodeItem, decodeHead_encodeHead 0 i.toNat rest (by omega) hn]
          simp only [Int.toNat_of_nonneg hi]
        · have hn : (-(i + 1)).toNat < 18446744073709551616 := by
            simp [cborWf] at hwf
            omega
          simp only [cborEncode, if_neg (by omega : ¬ (0 : Int) ≤ i)]
          rw [decodeItem, decodeHead_encodeHead 1 (-(i + 1)).toNat rest (by omega) hn]
          have key : -(((-(i + 1)).toNat : Int) + 1) = i := by omega
          simp only [key]
      | bigint i => simp [cborWf] at hwf
      | bytes bs =>
        have hn : bs.length < 18446744073709551616 := by simpa [cborWf] using hwf
        simp only [cborEncode, List.append_assoc]
        rw [decodeItem, decodeHead_encodeHead 2 bs.length (bs ++ rest) (by omega) hn]
        simp [List.take_left, List.drop_left]
      | text bs =>
        have hn : bs.length < 18446744073709551616 := by simpa [cborWf] using hwf
        simp only [cborEncode, List.append_assoc]
        rw [decodeItem, decodeHead_encodeHead 3 bs.length (bs ++ rest) (by omega) hn]
        simp [List.take_left, List.drop_left]
      | array xs =>
        simp only [cborWf, Bool.and_eq_true, decide_eq_true_eq] at hwf
        simp only [szItem] at hsz
        simp only [cborEncode, List.append_assoc]
        rw [decodeItem, decodeHead_encodeHead 4 xs.length _ (by omega) hwf.1]
        simp only [ih2 xs rest hwf.2 (by omega)]
      | map ps =>
        simp only [cborWf, Bool.and_eq_true, decide_eq_true_eq] at hwf
        simp only [szItem] at hsz
        simp only [cborEncode, List.append_assoc]
        rw [decodeItem, decodeHead_encodeHead 5 ps.length _ (by omega) hwf.1]
        simp only [ih3 ps rest hwf.2 (by omega)]
      | tagged t v =>
        simp only [cborWf, Bool.and_eq_true, decide_eq_true_eq] at hwf
        simp only [szItem] at hsz
        simp only [cborEncode, List.append_assoc]
        rw [decodeItem, decodeHead_encodeHead 6 t _ (by omega) hwf.1.2]
        simp only [ih1 v rest hwf.2 (by omega)]
        rw [if_neg hwf.1.1.1, if_neg hwf.1.1.2]
      | bool b =>
        cases b
        · rw [show cborEncode (.bool false) = encodeHead 7 20 from rfl]
          rw [decodeItem, decodeHead_encodeHead 7 20 rest (by omega) (by omega)]
        · rw [show cborEncode (.bool true) = encodeHead 7 21 from rfl]
          rw [decodeItem, decodeHead_encodeHead 7 21 rest (by omega) (by omega)]
      | null =>
        simp only [cborEncode]
        rw [decodeItem, decodeHead_encodeHead 7 22 rest (by omega) (by omega)]
      | undefined =>
        simp only [cborEncode]
        rw [decodeItem, decodeHead_encodeHead 7 23 rest (by omega) (by omega)]
    · intro xs rest hwf hsz
      cases xs with
      | nil => simp [encodeListItems, decodeManyItems]
      | cons x xs =>
        simp only [cborWfList, Bool.and_eq_true] at hwf
        simp only [szList] at hsz
        simp only [encodeListItems, List.append_assoc, List.length_cons]
        rw [decodeManyItems, ih1 x _ hwf.1 (by omega)]
        simp only [ih2 xs rest hwf.2 (by omega)]
    · intro ps rest hwf hsz
      cases ps with
      | nil => simp [encodePairItems, decodePairsItems]
      | cons p ps =>
        obtain ⟨k, v⟩ := p
        simp only [cborWfPairs, Bool.and_eq_true] at hwf
        simp only [szPairs] at hsz
        simp only [encodePairItems, List.append_assoc, List.length_cons]
        rw [decodePairsItems, ih1 k _ hwf.1.1 (by omega)]
        simp only [ih1 v (encodePairItems ps ++ rest) hwf.1.2 (by omega),
          ih3 ps rest hwf.2 (by omega)]

mutual
theorem szItem_le_encode (v : CborValue) : szItem v + 1 ≤ 2 * (cborEncode v).length := by
  cases v with
  | int i =>
    have h1 := encodeHead_length_pos 0 i.toNat
    have h2 := encodeHead_length_pos 1 (-(i + 1)).toNat
    simp only [szItem, cborEncode]
    split_ifs <;> omega
  | bigint i =>
    have h1 := encodeHead_length_pos 0 i.toNat
    have h2 := encodeHead_length_pos 1 (-(i + 1)).toNat
    simp only [szItem, cborEncode]
    split_ifs <;> omega
  | bytes bs =>
    have h := encodeHead_length_pos 2 bs.length
    simp only [szItem, cborEncode, List.length_append]
    omega
  | text bs =>
    have h := encodeHead_length_pos 3 bs.length
    simp only [szItem, cborEncode, List.length_append]
    omega
  | array xs =>
    have h := encodeHead_length_pos 4 xs.length
    have h2 := szList_le_encode xs
    simp only [szItem, cborEncode, List.length_append]
    omega
  | map ps =>
    have h := encodeHead_length_pos 5 ps.length
    have h2 := szPairs_le_encode ps
    simp only [szItem, cborEncode, List.length_append]
    omega
  | tagged t v =>
    have h := encodeHead_length_pos 6 t
    have h2 := szItem_le_encode v
    simp only [szItem, cborEncode, List.length_append]
    omega
  | bool b =>
    have h := encodeHead_length_pos 7 (if b then 21 else 20)
    simp only [szItem, cborEncode]
    omega
  | null =>
    have h := encodeHead_length_pos 7 22
    simp only [szItem, cborEncode]
    omega
  | undefined =>
    have h := encodeHead_length_pos 7 23
    simp only [szItem, cborEncode]
    omega

theorem szList_le_encode (xs : List CborValue) : szList xs ≤ 2 * (encodeListItems xs).length := by
  cases xs with
  | nil => simp [szList, encodeListItems]
  | cons x xs =>
    have h1 := szItem_le_encode x
    have h2 := szList_le_encode xs
    simp only [szList, encodeListItems, List.length_append]
    omega

theorem szPairs_le_encode (ps : List (CborValue × CborValue)) :
    szPairs ps ≤ 2 * (encodePairItems ps).length := by
  cases ps with
  | nil => simp [szPairs, encodePairItems]
  | cons p ps =>
    obtain ⟨k, v⟩ := p
    have h1 := szItem_le_encode k
    have h2 := szItem_le_encode v
    have h3 := szPairs_le_encode ps
    simp only [szPairs, encodePairItems, List.length_append]
    omega
end

/-- Round trip: decoding the encoding of a well-formed value recovers it. -/
theorem cborDecode_cborEncode (v : CborValue) (h : cborWf v = true) :
    cborDecode (cborEncode v) = .ok v := by
  have h1 := (decode_encode_all (2 * (cborEncode v).length)).1 v [] h
    (by have := szItem_le_encode v; omega)
  rw [List.append_nil] at h1
  simp [cborDecode, h1]

/-- Characterization of the second-element test of `isCoseSign1`: the JS
object test (non-null object, not an array, not a byte string) holds for
exactly the key/value maps and the tagged values. -/
theorem secondElem_char (v : CborValue) :
    (cborIsJsObject v && !cborIsNull v && !cborIsArray v && !cborIsBytes v) = true ↔
      (cborIsMap v = true ∨ ∃ t u, v = .tagged t u) := by
  cases v <;> simp [cborIsJsObject, cborIsNull, cborIsArray, cborIsBytes, cborIsMap]

/-- `cborIsNull` detects exactly `null`. -/
theorem cborIsNull_iff (v : CborValue) : cborIsNull v = true ↔ v = .null := by
  cases v <;> simp [cborIsNull]

/-- C1: for every byte buffer, `CborDecoder.decode` returns either a success
envelope (non-null message, decoder CBOR, no error) or an error envelope
(no message, decoder NONE, an error message): the two shapes are mutually
exclusive by construction and the operation is a total function — any
exception of the decode or the `JSON.stringify` step (the `BigInt`
serialization `TypeError`) is caught and returned, never thrown. -/
theorem C1_decode_envelope_shape (b : List Nat) :
    (∃ m, CborDecoder.decode b =
      { message := some m, decoder := Decoder.CBOR, error := none }) ∨
    (∃ e, CborDecoder.decode b =
      { message := none, decoder := Decoder.NONE, error := some e }) := by
  unfold CborDecoder.decode
  cases cborDecode b with
  | ok v =>
    cases hc : isCoseSign1 v
    · cases hbi : cborContainsBigInt v
      · refine Or.inl ⟨utf8Bytes (renderCbor v), ?_⟩
        simp [hc, hbi]
      · refine Or.inr ⟨"Failed to decode CBOR: Do not know how to serialize a BigInt", ?_⟩
        simp [hc, hbi]
    · cases hbi : coseContainsBigInt (parseCoseSign1 v)
      · refine Or.inl ⟨utf8Bytes (renderCose (parseCoseSign1 v)), ?_⟩
        simp [hc, hbi]
      · refine Or.inr ⟨"Failed to decode CBOR: Do not know how to serialize a BigInt", ?_⟩
        simp [hc, hbi]
  | error e => exact Or.inr ⟨_, rfl⟩

/-- Encodings are never empty (the `protectedBytes.length > 0` and
`payloadBytes.length > 0` tests of `parseCoseSign1` succeed on
encoder-produced byte strings). -/
theorem cborEncode_length_pos (v : CborValue) : 0 < (cborEncode v).length := by
  have h := szItem_le_encode v
  have h2 : 1 ≤ szItem v := by cases v <;> simp [szItem]
  omega

mutual
/-- Well-formed values (images of JSON values under the `cbor` encoder)
contain no `BigInt`, so `JSON.stringify` does not throw on them. -/
theorem cborWf_noBigInt (v : CborValue) :
    cborWf v = true → cborContainsBigInt v = false := by
  cases v with
  | int i =>
    intro h
    simp only [cborWf, Bool.and_eq_true, decide_eq_true_eq] at h
    simp only [cborContainsBigInt, Bool.or_eq_true, decide_eq_true_eq]
    simp only [Bool.or_eq_false_iff, decide_eq_false_iff_not]
    omega
  | bigint i =>
    intro h
    simp [cborWf] at h
  | bytes bs => intro _; rfl
  | text bs => intro _; rfl
  | array xs =>
    intro h
    simp only [cborWf, Bool.and_eq_true] at h
    simp only [cborContainsBigInt]
    exact bigIntInList_of_wf xs h.2
  | map ps =>
    intro h
    simp only [cborWf, Bool.and_eq_true] at h
    simp only [cborContainsBigInt, bigIntInMapValues_of_wf ps h.2, Bool.and_false]
  | tagged t v =>
    intro h
    simp only [cborWf, Bool.and_eq_true] at h
    simp only [cborContainsBigInt]
    exact cborWf_noBigInt v h.2
  | bool b => intro _; rfl
  | null => intro _; rfl
  | undefined => intro _; rfl

/-- `cborWf_noBigInt` over array elements. -/
theorem bigIntInList_of_wf (xs : List CborValue) :
    cborWfList xs = true → bigIntInList xs = false := by
  cases xs with
  | nil => intro _; rfl
  | cons x xs =>
    intro h
    simp only [cborWfList, Bool.and_eq_true] at h
    simp only [bigIntInList, cborWf_noBigInt x h.1, bigIntInList_of_wf xs h.2,
      Bool.or_self]

/-- `cborWf_noBigInt` over map values. -/
theorem bigIntInMapValues_of_wf (ps : List (CborValue × CborValue)) :
    cborWfPairs ps = true → bigIntInMapValues ps = false := by
  cases ps with
  | nil => intro _; rfl
  | cons p ps =>
    obtain ⟨k, v⟩ := p
    intro h
    simp only [cborWfPairs, Bool.and_eq_true] at h
    simp only [bigIntInMapValues, cborWf_noBigInt v h.1.2,
      bigIntInMapValues_of_wf ps h.2, Bool.or_self]
end

/-- C3 counterexample: a 4-element array whose second element is a tagged
value — not a key/value map — is nevertheless classified as COSE Sign1 by
`isCoseSign1` (the JS `typeof === 'object'` test also accepts `cbor.Tagged`
objects), so the claim's "exactly when element 1 is a key/value map" fails:
per the claim this input should have been decoded as plain CBOR. -/
theorem C3_counterexample :
    isCoseSign1 (.array [.bytes [], .tagged 1 (.int 0), .bytes [], .bytes []]) = true ∧
    cborIsMap (.tagged 1 (.int 0)) = false :=
  ⟨rfl, rfl⟩

/-- C3 amended: for every 4-element array, optionally wrapped in tag 18 or
98, the COSE Sign1 classification holds exactly when element 0 is a byte
string, element 1 is a non-null object other than an array or byte string
(i.e. a key/value map or a tagged value), element 2 is a byte string or
null, and element 3 is a byte string. -/
theorem C3_cose_shape (w e0 e1 e2 e3 : CborValue)
    (hw : w = .array [e0, e1, e2, e3] ∨ w = .tagged 18 (.array [e0, e1, e2, e3]) ∨
      w = .tagged 98 (.array [e0, e1, e2, e3])) :
    isCoseSign1 w = true ↔
      (cborIsBytes e0 = true ∧
        (cborIsMap e1 = true ∨ ∃ t u, e1 = .tagged t u) ∧
        (cborIsBytes e2 = true ∨ e2 = .null) ∧
        cborIsBytes e3 = true) := by
  rcases hw with hw | hw | hw <;> subst hw <;> cases e1 <;>
    simp [isCoseSign1, cborIsJsObject, cborIsNull, cborIsArray, cborIsBytes, cborIsMap,
      cborIsNull_iff] <;>
    cases e2 <;> simp [and_assoc]

/-- C3 witness: the two concrete discriminator examples of the claim —
`[bstr, map, bstr, bstr]` is COSE Sign1, `[bstr, bstr, bstr, bstr]` is not
(second element of the wrong type). -/
theorem C3_witness :
    isCoseSign1 (.array [.bytes [1], .map [], .bytes [2], .bytes [3]]) = true ∧
    isCoseSign1 (.array [.bytes [1], .bytes [9], .bytes [2], .bytes [3]]) = false ∧
    (isCoseSign1 (.array [.bytes [1], .map [], .bytes [2], .bytes [3]]) = true ↔
      (cborIsBytes (.bytes (1 :: [])) = true ∧
        (cborIsMap (CborValue.map []) = true ∨ ∃ t u, CborValue.map [] = .tagged t u) ∧
        (cborIsBytes (.bytes (2 :: [])) = true ∨ CborValue.bytes (2 :: []) = .null) ∧
        cborIsBytes (.bytes (3 :: [])) = true)) :=
  ⟨rfl, rfl,
    C3_cose_shape (.array [.bytes [1], .map [], .bytes [2], .bytes [3]])
      (.bytes [1]) (.map []) (.bytes [2]) (.bytes [3]) (Or.inl rfl)⟩

/-- C6: for every array (optionally tagged) that `parseCoseSign1` parses on
its main path, the signature element is never sub-decoded: the result's
`signature_info` is exactly the signature's full length plus the preview of
its first at-most-16 bytes. -/
theorem C6_signature_info (w p u pl : CborValue) (sb : List Nat) (t : Nat)
    (hw : w = .array [p, u, pl, .bytes sb] ∨ w = .tagged t (.array [p, u, pl, .bytes sb])) :
    ∃ r, parseCoseSign1 w = .parsed r ∧
      r.signature_info.length = sb.length ∧
      r.signature_info.preview = sb.take 16 ∧
      r.signature_info.preview.length = min 16 sb.length := by
  rcases hw with hw | hw <;> subst hw <;>
    exact ⟨_, rfl, rfl, rfl, by simp⟩

/-- C6 witness: a COSE Sign1 with a 10,000-byte signature parses with
`signature_info.length = 10000` and a preview of exactly 16 bytes. -/
theorem C6_witness :
    ∃ r, parseCoseSign1 (.array [.bytes [], .map [], .null,
        .bytes (List.replicate 10000 0)]) = .parsed r ∧
      r.signature_info.length = 10000 ∧
      r.signature_info.preview.length = 16 := by
  obtain ⟨r, h1, h2, h3, h4⟩ := C6_signature_info
    (.array [.bytes [], .map [], .null, .bytes (List.replicate 10000 0)])
    (.bytes []) (.map []) .null (List.replicate 10000 0) 0 (Or.inl rfl)
  refine ⟨r, h1, ?_, ?_⟩
  · rw [h2, List.length_replicate]
  · rw [h4, List.length_replicate]
    omega

/-- C7: the validation failures of `encodeCoseSign1` are returned, never
thrown: a JSON parse failure yields `{success:false}` with a descriptive
error and no data; so does any parsed value that is not a (truthy) object;
and an object lacking the `payload` key fails with the error naming the
missing `payload` field. -/
theorem C7_validation :
    ((encodeCoseSign1 (.error ())).success = false ∧
      (encodeCoseSign1 (.error ())).data = none ∧
      (encodeCoseSign1 (.error ())).error ≠ none) ∧
    (∀ j, (jsTruthy j && jsTypeofObject j) = false →
      encodeCoseSign1 (.ok j) =
        { success := false, data := none, error := some "COSE input must be a JSON object" }) ∧
    (∀ j, (jsTruthy j && jsTypeofObject j) = true → hasField j "payload" = false →
      encodeCoseSign1 (.ok j) =
        { success := false, data := none,
          error := some "COSE input must contain a \"payload\" field" }) := by
  refine ⟨⟨rfl, rfl, by simp [encodeCoseSign1]⟩, ?_, ?_⟩
  · intro j hj
    simp [encodeCoseSign1, hj]
  · intro j hj hp
    simp [encodeCoseSign1, hj, hp]

/-- C7 witness: `'{"foo": 1}'` parses to an object without a `payload` key
and is rejected with the error naming the missing `payload` field; the
string `"null"` parses to a non-object and is rejected as well. -/
theorem C7_witness :
    hasField (Json.obj [("foo", Json.num 1)]) "payload" = false ∧
    encodeCoseSign1 (.ok (Json.obj [("foo", Json.num 1)])) =
      { success := false, data := none,
        error := some "COSE input must contain a \"payload\" field" } ∧
    encodeCoseSign1 (.ok Json.null) =
      { success := false, data := none, error := some "COSE input must be a JSON object" } :=
  ⟨rfl, C7_validation.2.2 (Json.obj [("foo", Json.num 1)]) rfl rfl,
    C7_validation.2.1 Json.null rfl⟩

/-- C5 counterexample: `"41424344"` is itself valid base64, so the
base64-first attempt succeeds and its bytes — not the hex reading
`[65,66,67,68]` (`ABCD`) — become the signature; `"QUJDRA=="` resolves to
`[65,66,67,68]`.  The two encodings therefore produce different signature
bytes, contradicting the claim's consequence. -/
theorem C5_counterexample :
    resolveSignature (some (.str "41424344")) = .ok [227, 94, 54, 227, 126, 56] ∧
    resolveSignature (some (.str "QUJDRA==")) = .ok [65, 66, 67, 68] ∧
    hexDecodeJs "41424344" = .ok [65, 66, 67, 68] ∧
    [227, 94, 54, 227, 126, 56] ≠ [65, 66, 67, 68] :=
  ⟨rfl, rfl, rfl, by decide⟩

/-- C5 amended: signature resolution attempts base64 first and hex second,
failing only if both fail, and an absent signature yields the empty byte
string; but because `"41424344"` is itself valid base64 it resolves via the
base64 path, to bytes that differ from the hex reading `ABCD` to which
`"QUJDRA=="` resolves. -/
theorem C5_signature_order :
    (∀ s bs, b64DecodeJs s = .ok bs → s ≠ "" →
      resolveSignature (some (.str s)) = .ok bs) ∧
    (∀ s bs, b64DecodeJs s = .error () → hexDecodeJs s = .ok bs → s ≠ "" →
      resolveSignature (some (.str s)) = .ok bs) ∧
    (∀ s, b64DecodeJs s = .error () → hexDecodeJs s = .error () → s ≠ "" →
      resolveSignature (some (.str s)) =
        .error "Signature must be valid base64 or hex string") ∧
    resolveSignature none = .ok [] ∧
    (resolveSignature (some (.str "41424344")) = .ok [227, 94, 54, 227, 126, 56] ∧
      resolveSignature (some (.str "QUJDRA==")) = .ok [65, 66, 67, 68] ∧
      [227, 94, 54, 227, 126, 56] ≠ [65, 66, 67, 68]) := by
  refine ⟨?_, ?_, ?_, rfl, rfl, rfl, by decide⟩
  · intro s bs hb hs
    simp [resolveSignature, jsTruthy, hs, hb]
  · intro s bs hb hx hs
    simp [resolveSignature, jsTruthy, hs, hb, hx]
  · intro s hb hx hs
    simp [resolveSignature, jsTruthy, hs, hb, hx]

/-- C5 witness: the base64-first branch applied to `"QUJDRA=="`. -/
theorem C5_witness :
    b64DecodeJs "QUJDRA==" = .ok [65, 66, 67, 68] ∧
    resolveSignature (some (.str "QUJDRA==")) = .ok [65, 66, 67, 68] :=
  ⟨rfl, C5_signature_order.1 "QUJDRA==" [65, 66, 67, 68] rfl (by decide)⟩

/-- C2 counterexample: `findDecoder` is a single `find` pass testing each
decoder's topic predicate and sniffing predicate together, so with a
registry whose first decoder matches only by sniffing and whose second
matches by topic name, `findDecoder` returns the first (sniffing) decoder —
while the claimed two-phase rule (all topic predicates before any sniffing
predicate) would return the second.  The chosen binding does record only
the first declared format. -/
theorem C2_counterexample :
    (findDecoder [sniffOnlyDecoder, topicOnlyDecoder] "t" (some [1])).map
        (fun b => b.decoder.formats) = some ["sniff", "sniff2"] ∧
    (resolveTwoPhase [sniffOnlyDecoder, topicOnlyDecoder] "t" (some [1])).map
        (fun b => b.decoder.formats) = some ["topic"] ∧
    (findDecoder [sniffOnlyDecoder, topicOnlyDecoder] "t" (some [1])).map
        (fun b => b.format) = some (some "sniff") :=
  ⟨rfl, rfl, rfl⟩

/-- C2 amended: `findDecoder` iterates the registry in its fixed order and
returns the first decoder for which either the topic-name predicate matches
the path or (when a latest payload exists) the byte-sniffing predicate
matches that payload — both predicates of one decoder are consulted before
moving to the next — and the binding records only the first declared format
identifier of the matched decoder. -/
theorem C2_find_first_match (ds : List MessageDecoder) (path : String)
    (payload : Option (List Nat)) :
    (∀ b, findDecoder ds path payload = some b →
      b.format = b.decoder.formats.head? ∧
      decoderMatches b.decoder path payload = true ∧
      ∃ pre post, ds = pre ++ b.decoder :: post ∧
        ∀ d ∈ pre, decoderMatches d path payload = false) ∧
    (findDecoder ds path payload = none →
      ∀ d ∈ ds, decoderMatches d path payload = false) := by
  induction ds with
  | nil =>
    constructor
    · intro b hb
      simp [findDecoder] at hb
    · intro _ d hd
      simp at hd
  | cons d ds ih =>
    constructor
    · intro b hb
      cases hm : decoderMatches d path payload with
      | true =>
        simp [findDecoder, List.find?_cons, hm] at hb
        subst hb
        exact ⟨rfl, hm, [], ds, rfl, by simp⟩
      | false =>
        simp only [findDecoder, List.find?_cons, hm] at hb
        obtain ⟨hf, hmt, pre, post, hds, hpre⟩ := ih.1 b (by rw [findDecoder]; exact hb)
        refine ⟨hf, hmt, d :: pre, post, by simp [hds], ?_⟩
        intro d' hd'
        rcases List.mem_cons.mp hd' with h | h
        · subst h
          exact hm
        · exact hpre d' h
    · intro hn d' hd'
      cases hm : decoderMatches d path payload with
      | true =>
        simp only [findDecoder, List.find?_cons, hm] at hn
        simp at hn
      | false =>
        simp only [findDecoder, List.find?_cons, hm] at hn
        rcases List.mem_cons.mp hd' with h | h
        · subst h
          exact hm
        · exact ih.2 (by rw [findDecoder]; exact hn) d' h

/-- C2 witness: on a singleton registry holding the CBOR entry, the
first-match characterization applies with the CBOR decoder matched by
sniffing and bound to its first format `"CBOR"`. -/
theorem C2_witness :
    findDecoder [cborRegistryEntry] "t" (some [1]) =
      some { decoder := cborRegistryEntry, format := some "CBOR" } ∧
    decoderMatches cborRegistryEntry "t" (some [1]) = true ∧
    { decoder := cborRegistryEntry, format := some "CBOR" : TopicDecoder }.format =
      cborRegistryEntry.formats.head? := by
  have h := (C2_find_first_match [cborRegistryEntry] "t" (some [1])).1
    { decoder := cborRegistryEntry, format := some "CBOR" } rfl
  exact ⟨rfl, h.2.1, h.1⟩

/-- C9: once the per-topic binding is memoized, neither message arrivals nor
getter reads change it: after any sequence of such events the memoized
binding is unchanged and the getter still returns it (a change requires the
explicit setter override or destruction). -/
theorem C9_cache_stable (ds : List MessageDecoder) (vm : TopicViewModel)
    (b : TopicDecoder) (h : vm._decoder = some b) (evs : List VMEvent) :
    (evs.foldl (applyVMEvent ds) vm)._decoder = some b ∧
    (getDecoder ds (evs.foldl (applyVMEvent ds) vm)).1 = some b ∧
    (getDecoder ds (evs.foldl (applyVMEvent ds) vm)).2._decoder = some b := by
  have hstep : ∀ vm' e, vm'._decoder = some b → (applyVMEvent ds vm' e)._decoder = some b := by
    intro vm' e h'
    cases e with
    | msgArrive p => simpa [applyVMEvent, messageArrives] using h'
    | readDecoder => simp [applyVMEvent, getDecoder, h']
  have hfold : (evs.foldl (applyVMEvent ds) vm)._decoder = some b := by
    induction evs generalizing vm with
    | nil => simpa using h
    | cons e evs ihe => exact ihe _ (hstep vm e h)
  refine ⟨hfold, ?_, ?_⟩ <;> simp [getDecoder, hfold]

/-- C9 witness: a view model with a memoized CBOR binding keeps it across a
message arrival, a read, and another message arrival. -/
theorem C9_witness :
    (([VMEvent.msgArrive [1], VMEvent.readDecoder, VMEvent.msgArrive [2]].foldl
        (applyVMEvent [cborRegistryEntry])
        { _decoder := some { decoder := cborRegistryEntry, format := some "CBOR" }
          owner := some { path := "t", payload := none }
          selected := false, expanded := false, referenceCounter := 1 })._decoder =
      some { decoder := cborRegistryEntry, format := some "CBOR" }) ∧
    ((getDecoder [cborRegistryEntry]
        ([VMEvent.msgArrive [1], VMEvent.readDecoder, VMEvent.msgArrive [2]].foldl
          (applyVMEvent [cborRegistryEntry])
          { _decoder := some { decoder := cborRegistryEntry, format := some "CBOR" }
            owner := some { path := "t", payload := none }
            selected := false, expanded := false, referenceCounter := 1 })).1 =
      some { decoder := cborRegistryEntry, format := some "CBOR" }) :=
  ⟨(C9_cache_stable [cborRegistryEntry] _ _ rfl _).1,
    (C9_cache_stable [cborRegistryEntry] _ _ rfl _).2.1⟩

/-- Per-character facts for base64 alphabet characters produced by the
encoder: they are untouched by the URL-safe fixup, kept by the cleaning
filter, and decode back to their 6-bit value. -/
theorem b64Char_spec : ∀ v < 64, urlSafeFix (b64Char v) = b64Char v ∧
    isB64Char (b64Char v) = true ∧ b64Val (b64Char v) = v := by decide

/-- The padding character is dropped by the cleaning filter. -/
theorem b64_pad_dropped : urlSafeFix '=' = '=' ∧ isB64Char '=' = false := by decide

/-- Decoding the cleaned base64 encoding of a byte list recovers the bytes,
and the cleaned length is never congruent 1 mod 4. -/
theorem b64_tidy_quads : ∀ bs : List Nat, (∀ b ∈ bs, b < 256) →
    b64Quads ((tidyB64 (b64EncodeGroups bs)).map b64Val) = bs ∧
    (tidyB64 (b64EncodeGroups bs)).length % 4 ≠ 1
  | [], _ => by simp [b64EncodeGroups, tidyB64, b64Quads]
  | [a], h => by
    have ha : a < 256 := h a (by simp)
    have h1 := b64Char_spec (a / 4) (by omega)
    have h2 := b64Char_spec ((a % 4) * 16) (by omega)
    refine ⟨?_, by simp [b64EncodeGroups, tidyB64, h1.1, h1.2.1, h2.1, h2.2.1,
      b64_pad_dropped.1, b64_pad_dropped.2]⟩
    simp [b64EncodeGroups, tidyB64, h1.1, h1.2.1, h2.1, h2.2.1,
      b64_pad_dropped.1, b64_pad_dropped.2, b64Quads, h1.2.2, h2.2.2]
    omega
  | [a, b], h => by
    have ha : a < 256 := h a (by simp)
    have hb : b < 256 := h b (by simp)
    have h1 := b64Char_spec (a / 4) (by omega)
    have h2 := b64Char_spec ((a % 4) * 16 + b / 16) (by omega)
    have h3 := b64Char_spec ((b % 16) * 4) (by omega)
    refine ⟨?_, by simp [b64EncodeGroups, tidyB64, h1.1, h1.2.1, h2.1, h2.2.1, h3.1, h3.2.1,
      b64_pad_dropped.1, b64_pad_dropped.2]⟩
    simp [b64EncodeGroups, tidyB64, h1.1, h1.2.1, h2.1, h2.2.1, h3.1, h3.2.1,
      b64_pad_dropped.1, b64_pad_dropped.2, b64Quads, h1.2.2, h2.2.2, h3.2.2]
    constructor <;> omega
  | a :: b :: c :: rest, h => by
    have ha : a < 256 := h a (by simp)
    have hb : b < 256 := h b (by simp)
    have hc : c < 256 := h c (by simp)
    have ih := b64_tidy_quads rest (fun x hx => h x (by simp [hx]))
    have h1 := b64Char_spec (a / 4) (by omega)
    have h2 := b64Char_spec ((a % 4) * 16 + b / 16) (by omega)
    have h3 := b64Char_spec ((b % 16) * 4 + c / 64) (by omega)
    have h4 := b64Char_spec (c % 64) (by omega)
    rw [show b64EncodeGroups (a :: b :: c :: rest) =
      b64Char (a / 4) :: b64Char ((a % 4) * 16 + b / 16) :: b64Char ((b % 16) * 4 + c / 64)
        :: b64Char (c % 64) :: b64EncodeGroups rest from rfl]
    rw [show ∀ x xs, tidyB64 (x :: xs) =
        (if isB64Char (urlSafeFix x) then [urlSafeFix x] else []) ++ tidyB64 xs from
      fun x xs => by simp [tidyB64, List.filter_cons]; split_ifs <;> simp]
    rw [show ∀ x xs, tidyB64 (x :: xs) =
        (if isB64Char (urlSafeFix x) then [urlSafeFix x] else []) ++ tidyB64 xs from
      fun x xs => by simp [tidyB64, List.filter_cons]; split_ifs <;> simp]
    rw [show ∀ x xs, tidyB64 (x :: xs) =
        (if isB64Char (urlSafeFix x) then [urlSafeFix x] else []) ++ tidyB64 xs from
      fun x xs => by simp [tidyB64, List.filter_cons]; split_ifs <;> simp]
    rw [show ∀ x xs, tidyB64 (x :: xs) =
        (if isB64Char (urlSafeFix x) then [urlSafeFix x] else []) ++ tidyB64 xs from
      fun x xs => by simp [tidyB64, List.filter_cons]; split_ifs <;> simp]
    simp only [h1.1, h1.2.1, h2.1, h2.2.1, h3.1, h3.2.1, h4.1, h4.2.1, if_true,
      List.singleton_append, List.map_cons, b64Quads, h1.2.2, h2.2.2, h3.2.2, h4.2.2,
      List.length_cons, ih.1]
    refine ⟨?_, ?_⟩
    · simp only [List.cons.injEq]
      refine ⟨by omega, by omega, by omega, trivial⟩
    · have := ih.2
      omega

/-- `js-base64` decoding inverts `js-base64` encoding on byte lists. -/
theorem b64DecodeJs_b64Encode (bs : List Nat) (h : ∀ b ∈ bs, b < 256) :
    b64DecodeJs (b64Encode bs) = .ok bs := by
  obtain ⟨h1, h2⟩ := b64_tidy_quads bs h
  show (let t := tidyB64 (b64Encode bs).data;
    if t.length % 4 = 1 then Except.error () else .ok (b64Quads (t.map b64Val))) = .ok bs
  rw [show (b64Encode bs).data = b64EncodeGroups bs from rfl]
  rw [if_neg h2, h1]

/-- Every byte emitted by `encodeHead` is below 256. -/
theorem encodeHead_bytes_lt (mt n : Nat) (hmt : mt < 8) : ∀ b ∈ encodeHead mt n, b < 256 := by
  intro b hb
  unfold encodeHead at hb
  split_ifs at hb with h1 h2 h3 h4
  · simp at hb
    omega
  · simp at hb
    rcases hb with rfl | rfl <;> omega
  · simp at hb
    rcases hb with rfl | rfl | rfl <;> omega
  · simp at hb
    rcases hb with rfl | rfl | rfl | rfl | rfl <;> omega
  · simp at hb
    rcases hb with rfl | rfl | rfl | rfl | rfl | rfl | rfl | rfl | rfl <;> omega

/-- Code points of characters are below 0x110000. -/
theorem char_toNat_lt (c : Char) : c.toNat < 1114112 := by
  rcases c.valid with h | ⟨h1, h2⟩
  · exact Nat.lt_trans h (by norm_num)
  · exact h2

/-- UTF-8 encoding of a valid code point emits bytes below 256. -/
theorem utf8Char_lt (n : Nat) (hn : n < 1114112) : ∀ b ∈ utf8Char n, b < 256 := by
  intro b hb
  unfold utf8Char at hb
  split_ifs at hb with h1 h2 h3
  · simp at hb
    omega
  · simp at hb
    rcases hb with rfl | rfl <;> omega
  · simp at hb
    rcases hb with rfl | rfl | rfl <;> omega
  · simp at hb
    rcases hb with rfl | rfl | rfl | rfl <;> omega

/-- UTF-8 bytes of strings are below 256. -/
theorem utf8Bytes_lt (s : String) : ∀ b ∈ utf8Bytes s, b < 256 := by
  intro b hb
  unfold utf8Bytes at hb
  simp only [List.mem_flatMap] at hb
  obtain ⟨c, _, hc⟩ := hb
  exact utf8Char_lt c.toNat (char_toNat_lt c) b hc

mutual
/-- Every byte of the CBOR encoding of a JSON-derived value is below 256. -/
theorem jsonBytes_lt (j : Json) : ∀ b ∈ cborEncode (jsonToCbor j), b < 256 := by
  cases j with
  | null => exact fun b hb => encodeHead_bytes_lt 7 22 (by omega) b hb
  | bool bb => exact fun b hb => encodeHead_bytes_lt 7 _ (by omega) b hb
  | num n =>
    intro b hb
    simp only [jsonToCbor, cborEncode] at hb
    split_ifs at hb <;> exact encodeHead_bytes_lt _ _ (by omega) b hb
  | str s =>
    intro b hb
    simp only [jsonToCbor, cborEncode] at hb
    rcases List.mem_append.mp hb with hh | hh
    · exact encodeHead_bytes_lt 3 _ (by omega) b hh
    · exact utf8Bytes_lt s b hh
  | arr xs =>
    intro b hb
    simp only [jsonToCbor, cborEncode] at hb
    rcases List.mem_append.mp hb with hh | hh
    · exact encodeHead_bytes_lt 4 _ (by omega) b hh
    · exact jsonBytesList_lt xs b hh
  | obj kvs =>
    intro b hb
    simp only [jsonToCbor, cborEncode] at hb
    rcases List.mem_append.mp hb with hh | hh
    · exact encodeHead_bytes_lt 5 _ (by omega) b hh
    · exact jsonBytesObj_lt kvs b hh

/-- Elementwise byte bound for encoded JSON arrays. -/
theorem jsonBytesList_lt (xs : List Json) :
    ∀ b ∈ encodeListItems (jsonListToCbor xs), b < 256 := by
  cases xs with
  | nil => intro b hb; simp [jsonListToCbor, encodeListItems] at hb
  | cons x xs =>
    intro b hb
    simp only [jsonListToCbor, encodeListItems] at hb
    rcases List.mem_append.mp hb with hh | hh
    · exact jsonBytes_lt x b hh
    · exact jsonBytesList_lt xs b hh

/-- Pairwise byte bound for encoded JSON objects. -/
theorem jsonBytesObj_lt (kvs : List (String × Json)) :
    ∀ b ∈ encodePairItems (jsonObjToCbor kvs), b < 256 := by
  cases kvs with
  | nil => intro b hb; simp [jsonObjToCbor, encodePairItems] at hb
  | cons kv kvs =>
    obtain ⟨k, v⟩ := kv
    intro b hb
    simp only [jsonObjToCbor, encodePairItems, cborEncode, List.mem_append] at hb
    rcases hb with ((hk | hk) | hv) | hv
    · exact encodeHead_bytes_lt 3 _ (by omega) b hk
    · exact utf8Bytes_lt k b hk
    · exact jsonBytes_lt v b hv
    · exact jsonBytesObj_lt kvs b hv
end

/-- C8: `encodeCbor` succeeds for every input: a parsed JSON value is
CBOR-encoded, a parse failure degrades to encoding the whole input text as
a literal string (never a failure result), and the returned data is the
base64 text of the CBOR bytes — faithfully, since base64-decoding it
recovers exactly those bytes. -/
theorem C8_encodeCbor_total (parsed : Except Unit Json) (input : String) :
    (encodeCbor parsed input).success = true ∧
    (encodeCbor parsed input).error = none ∧
    (∀ j, parsed = .ok j →
      (encodeCbor parsed input).data = some (b64Encode (cborEncode (jsonToCbor j)))) ∧
    (parsed = .error () →
      (encodeCbor parsed input).data =
        some (b64Encode (cborEncode (jsonToCbor (.str input))))) ∧
    ∃ bytes, (encodeCbor parsed input).data = some (b64Encode bytes) ∧
      b64DecodeJs (b64Encode bytes) = .ok bytes := by
  cases parsed with
  | ok j =>
    refine ⟨rfl, rfl, ?_, ?_, ?_⟩
    · intro j' hj
      cases hj
      rfl
    · intro h
      cases h
    · exact ⟨cborEncode (jsonToCbor j), rfl,
        b64DecodeJs_b64Encode _ (jsonBytes_lt j)⟩
  | error u =>
    cases u
    refine ⟨rfl, rfl, ?_, ?_, ?_⟩
    · intro j' hj
      cases hj
    · intro _
      rfl
    · exact ⟨cborEncode (jsonToCbor (.str input)), rfl,
        b64DecodeJs_b64Encode _ (jsonBytes_lt (.str input))⟩

/-- C8 witness: a parsed number is CBOR-encoded, and a parse failure falls
back to the literal-string encoding; both succeed. -/
theorem C8_witness :
    (encodeCbor (.ok (Json.num 5)) "x").success = true ∧
    (encodeCbor (.ok (Json.num 5)) "x").data =
      some (b64Encode (cborEncode (jsonToCbor (Json.num 5)))) ∧
    (encodeCbor (.error ()) "hi").success = true ∧
    (encodeCbor (.error ()) "hi").data =
      some (b64Encode (cborEncode (jsonToCbor (.str "hi")))) :=
  ⟨(C8_encodeCbor_total (.ok (Json.num 5)) "x").1,
   (C8_encodeCbor_total (.ok (Json.num 5)) "x").2.2.1 (Json.num 5) rfl,
   (C8_encodeCbor_total (.error ()) "hi").1,
   (C8_encodeCbor_total (.error ()) "hi").2.2.2.1 rfl⟩

/-- C4 counterexample: `encodeCoseSign1` accepts `{"payload": 1,
"unprotected_headers": 5}` (validation checks only the `payload` key) and
encodes the number 5 directly as the second COSE array element; decoding
that output fails the `isCoseSign1` discriminator (second element not an
object), so `CborDecoder.decode` takes the plain-CBOR branch and the
rendered structure carries no `_cose_structure`/`_cbor_tag` markers —
refuting the claim for this accepted input. -/
theorem C4_counterexample :
    (encodeCoseSign1 (.ok (Json.obj
      [("payload", Json.num 1), ("unprotected_headers", Json.num 5)]))).success = true ∧
    (encodeCoseSign1 (.ok (Json.obj
      [("payload", Json.num 1), ("unprotected_headers", Json.num 5)]))).data =
      some (b64Encode (cborEncode (coseSign1Value
        (Json.obj [("payload", Json.num 1), ("unprotected_headers", Json.num 5)]) []))) ∧
    cborDecode (cborEncode (coseSign1Value
        (Json.obj [("payload", Json.num 1), ("unprotected_headers", Json.num 5)]) [])) =
      .ok (.tagged 18 (.array [.bytes [160], .int 5, .bytes [1], .bytes []])) ∧
    isCoseSign1 (.tagged 18 (.array [.bytes [160], .int 5, .bytes [1], .bytes []])) = false :=
  ⟨rfl, rfl, rfl, rfl⟩

/-- C4 amended: for every input accepted by `encodeCoseSign1` whose
`unprotected_headers` field is absent/falsy (defaulting to the empty
object) or a JSON object, and whose values lie in the modelled JS fragment
(integers in the safe range — `JSON.parse` produces doubles and the `cbor`
encoder emits CBOR integers only for safe integers — and sizes within the
64-bit CBOR argument fields, for the assembled value as well as for the
independently encoded protected headers and payload), decoding the
produced bytes yields a success envelope whose parsed structure carries
`_cose_structure = "COSE_Sign1"` and `_cbor_tag = 18`. -/
theorem C4_roundtrip (kvs : List (String × Json)) (sb : List Nat)
    (hp : hasField (Json.obj kvs) "payload" = true)
    (hu : ∃ ukvs, jsOrEmptyObj (getField (Json.obj kvs) "unprotected_headers") =
      Json.obj ukvs)
    (hsig : resolveSignature (getField (Json.obj kvs) "signature") = .ok sb)
    (hwf : cborWf (coseSign1Value (Json.obj kvs) sb) = true)
    (hwfp : cborWf (jsonToCbor (jsOrEmptyObj
      (getField (Json.obj kvs) "protected_headers"))) = true)
    (hwfpl : cborWf (jsonToCbor ((getField (Json.obj kvs) "payload").getD
      Json.null)) = true) :
    encodeCoseSign1 (.ok (Json.obj kvs)) =
      { success := true
        data := some (b64Encode (cborEncode (coseSign1Value (Json.obj kvs) sb)))
        error := none } ∧
    ∃ r, CborDecoder.decode (cborEncode (coseSign1Value (Json.obj kvs) sb)) =
        { message := some (utf8Bytes (renderCose (.parsed r)))
          decoder := Decoder.CBOR
          error := none } ∧
      parseCoseSign1 (coseSign1Value (Json.obj kvs) sb) = .parsed r ∧
      r._cose_structure = "COSE_Sign1" ∧
      r._cbor_tag = some 18 := by
  constructor
  · simp [encodeCoseSign1, jsTruthy, jsTypeofObject, hp, hsig]
  · obtain ⟨ukvs, hu⟩ := hu
    have hdec := cborDecode_cborEncode (coseSign1Value (Json.obj kvs) sb) hwf
    have hiso : isCoseSign1 (coseSign1Value (Json.obj kvs) sb) = true := by
      simp [coseSign1Value, isCoseSign1, hu, jsonToCbor, cborIsBytes, cborIsJsObject,
        cborIsNull, cborIsArray]
    have hu_wf : cborWf (jsonToCbor (jsOrEmptyObj
        (getField (Json.obj kvs) "unprotected_headers"))) = true := by
      simp only [coseSign1Value, cborWf, cborWfList, Bool.and_eq_true, Bool.and_true,
        and_true] at hwf
      tauto
    have hppos := cborEncode_length_pos (jsonToCbor (jsOrEmptyObj
      (getField (Json.obj kvs) "protected_headers")))
    have hplpos := cborEncode_length_pos (jsonToCbor
      ((getField (Json.obj kvs) "payload").getD Json.null))
    have hpp := cborDecode_cborEncode _ hwfp
    have hplp := cborDecode_cborEncode _ hwfpl
    have hnb : coseContainsBigInt (parseCoseSign1
        (coseSign1Value (Json.obj kvs) sb)) = false := by
      simp only [coseSign1Value, parseCoseSign1, coseContainsBigInt, classifyProtected,
        classifyPayload, if_pos hppos, if_pos hplpos, hpp, hplp,
        cborWf_noBigInt _ hwfp, cborWf_noBigInt _ hwfpl, cborWf_noBigInt _ hu_wf,
        Bool.or_self, Bool.or_false, Bool.false_or]
    refine ⟨_, ?_, rfl, rfl, rfl⟩
    simp only [CborDecoder.decode, hdec, hiso, if_true, hnb]
    rfl

/-- C4 witness: the amended round trip at the concrete input
`{"payload": 7}` — encoding succeeds and decoding its bytes yields the
parsed COSE Sign1 structure with `_cose_structure = "COSE_Sign1"` and
`_cbor_tag = 18`. -/
theorem C4_witness :
    hasField (Json.obj [("payload", Json.num 7)]) "payload" = true ∧
    resolveSignature (getField (Json.obj [("payload", Json.num 7)]) "signature") = .ok [] ∧
    cborWf (coseSign1Value (Json.obj [("payload", Json.num 7)]) []) = true ∧
    cborWf (jsonToCbor (jsOrEmptyObj
      (getField (Json.obj [("payload", Json.num 7)]) "protected_headers"))) = true ∧
    cborWf (jsonToCbor ((getField (Json.obj [("payload", Json.num 7)]) "payload").getD
      Json.null)) = true ∧
    (encodeCoseSign1 (.ok (Json.obj [("payload", Json.num 7)])) =
      { success := true
        data := some (b64Encode (cborEncode
          (coseSign1Value (Json.obj [("payload", Json.num 7)]) [])))
        error := none } ∧
    ∃ r, CborDecoder.decode (cborEncode
          (coseSign1Value (Json.obj [("payload", Json.num 7)]) [])) =
        { message := some (utf8Bytes (renderCose (.parsed r)))
          decoder := Decoder.CBOR
          error := none } ∧
      parseCoseSign1 (coseSign1Value (Json.obj [("payload", Json.num 7)]) []) = .parsed r ∧
      r._cose_structure = "COSE_Sign1" ∧
      r._cbor_tag = some 18) :=
  ⟨rfl, rfl, by decide, by decide, by decide,
    C4_roundtrip [("payload", Json.num 7)] [] rfl ⟨[], rfl⟩ rfl (by decide) (by decide)
      (by decide)⟩
